import Mathlib

/-!
Shallow embedding of the torcheval metric core
(`torcheval/metrics/functional/classification/recall.py` and
`torcheval/metrics/classification/accuracy.py`), together with theorems
settling the specification claims about it.

Modelling conventions:
* tensor values are exact rationals (`ℚ`); IEEE special values are made
  explicit by `FVal` (a number, NaN, `+inf` or `-inf`), so that `0/0 = NaN`
  and `x/0 = ±inf` behave as in the array backend;
* 1-D label tensors are integer lists, 2-D score tensors are lists of
  rational rows with an explicit column count;
* fallible code (validation errors, broadcasting errors) returns
  `Except String`;
* `logging.warning` is modelled by a `Bool` flag returned next to the
  computed tensor (`true` iff a warning was emitted).
-/

/-- A float value of the array backend: an exact rational, NaN, or ±infinity. -/
inductive FVal where
  | num (q : ℚ)
  | nan
  | inf
  | ninf
deriving DecidableEq, Repr

/-- Largest finite `float32` value, `(2 - 2⁻²³)·2¹²⁷`; `torch.nan_to_num`
replaces `+inf` with it. -/
def fltMax : ℚ := 340282346638528859811704183484516925440

/-- Elementwise division of the array backend:
`0/0 = NaN`, `x/0 = ±inf` for `x ≠ 0`, ordinary division otherwise. -/
def fdiv : FVal → FVal → FVal
  | .num a, .num b =>
      if b = 0 then (if a = 0 then .nan else if 0 < a then .inf else .ninf)
      else .num (a / b)
  | .nan, _ => .nan
  | _, .nan => .nan
  | .inf, .num b => if 0 ≤ b then .inf else .ninf
  | .ninf, .num b => if 0 ≤ b then .ninf else .inf
  | .num _, .inf => .num 0
  | .num _, .ninf => .num 0
  | _, _ => .nan

/-- Elementwise addition of the array backend (NaN propagates, `inf + -inf = NaN`). -/
def fadd : FVal → FVal → FVal
  | .num a, .num b => .num (a + b)
  | .nan, _ => .nan
  | _, .nan => .nan
  | .inf, .ninf => .nan
  | .ninf, .inf => .nan
  | .inf, _ => .inf
  | _, .inf => .inf
  | .ninf, _ => .ninf
  | _, .ninf => .ninf

/-- Elementwise multiplication of the array backend (NaN propagates, `0·inf = NaN`). -/
def fmul : FVal → FVal → FVal
  | .num a, .num b => .num (a * b)
  | .nan, _ => .nan
  | _, .nan => .nan
  | .inf, .inf => .inf
  | .inf, .ninf => .ninf
  | .ninf, .inf => .ninf
  | .ninf, .ninf => .inf
  | .inf, .num b => if 0 < b then .inf else if b < 0 then .ninf else .nan
  | .num a, .inf => if 0 < a then .inf else if a < 0 then .ninf else .nan
  | .ninf, .num b => if 0 < b then .ninf else if b < 0 then .inf else .nan
  | .num a, .ninf => if 0 < a then .ninf else if a < 0 then .inf else .nan

/-- Model of `torch.isnan` on one element. -/
def isNanF : FVal → Bool
  | .nan => true
  | _ => false

/-- Model of `torch.nan_to_num` on one element: NaN becomes `0`, `±inf` becomes `±fltMax`. -/
def nanToNum : FVal → FVal
  | .nan => .num 0
  | .inf => .num fltMax
  | .ninf => .num (-fltMax)
  | v => v

/-- Model of `tensor.sum()`: left fold of `fadd` starting from `0` (as torch does). -/
def fsum (l : List FVal) : FVal := l.foldl fadd (.num 0)

/-- Model of `tensor.mean()`: sum divided by the number of elements
(`NaN` on an empty tensor, via `0/0`). -/
def fmean (l : List FVal) : FVal := fdiv (fsum l) (.num (l.length : ℚ))

instance {ε α : Type} [DecidableEq ε] [DecidableEq α] : DecidableEq (Except ε α) := fun a b =>
  match a, b with
  | .ok x, .ok y => if h : x = y then .isTrue (by rw [h]) else .isFalse (by simp [h])
  | .error x, .error y => if h : x = y then .isTrue (by rw [h]) else .isFalse (by simp [h])
  | .ok _, .error _ => .isFalse (by simp)
  | .error _, .ok _ => .isFalse (by simp)

/-- A computed metric tensor: a 0-dim scalar or a 1-D vector. -/
inductive RTensor where
  | scalar (v : FVal)
  | vector (vs : List FVal)
deriving DecidableEq, Repr

/-- An input/target tensor: 1-D integer labels, or a 2-D score matrix with
an explicit column count (`cols` is the length of every row). -/
inductive Tensor where
  | t1 (data : List Int)
  | t2 (rows : List (List ℚ)) (cols : Nat)
deriving Repr

/-- Model of `tensor.shape` as a list of dimension sizes. -/
def Tensor.shape : Tensor → List Nat
  | .t1 d => [d.length]
  | .t2 rows cols => [rows.length, cols]

/-- Index of the first maximal element of a row (tail of `torch.argmax` along `dim=1`). -/
def argmaxAux (i bi : Nat) (bv : ℚ) : List ℚ → Nat
  | [] => bi
  | x :: xs => if bv < x then argmaxAux (i + 1) i x xs else argmaxAux (i + 1) bi bv xs

/-- Model of `torch.argmax` of one row: index of the first maximal element (`0` on an
empty row, which torch rejects and no caller reaches). -/
def argmaxIdx : List ℚ → Nat
  | [] => 0
  | x :: xs => argmaxAux 1 0 x xs

/-- The hard-label view of an input tensor: a 1-D tensor is already labels, a
2-D tensor is reduced by `torch.argmax(input, dim=1)`
(recall.py line 78-79). -/
def predLabels : Tensor → List Int
  | .t1 d => d
  | .t2 rows _ => rows.map (fun r => (argmaxIdx r : Int))

/-- String form of a shape, as python prints `tensor.shape`:
the bracketed comma-separated dimension list inside `torch.Size(...)`. -/
def natListRepr : List Nat → String
  | [] => ""
  | [x] => toString x
  | x :: xs => toString x ++ ", " ++ natListRepr xs

/-- Printed form of a tensor shape, as the python f-string interpolates it. -/
def shapeToString (s : List Nat) : String := "torch.Size([" ++ natListRepr s ++ "])"

/-- Model of `torch.histc(data, bins=n, min=0, max=n-1)` on integer-valued data.
For `n ≥ 2` each integer `c ∈ [0, n-1]` lands exactly in bin `c` (the bins
partition `[0, n-1]` into `n` equal intervals) and values outside `[0, n-1]`
are ignored.  For `n = 1` the call passes `min = max = 0`, and documented
`torch.histc` behaviour is that when both are zero the minimum and maximum of
the data are used instead, so every element is counted.  (`n = 0` is rejected
by torch and unreachable behind `_recall_param_check`.) -/
def histcInt (data : List Int) (n : Nat) : List ℚ :=
  if n = 1 then [(data.length : ℚ)]
  else (List.range n).map (fun (c : Nat) => (data.countP (fun x => decide (x = (c : Int))) : ℚ))

/-- The accumulated confusion-count state of the recall metric:
0-dim scalars on the micro path, length-`num_classes` vectors otherwise. -/
inductive RecallState where
  | scalarS (tp lbl pred : ℚ)
  | vectorS (tp lbl pred : List ℚ)
deriving DecidableEq, Repr

/-- Embedding of `_recall_param_check` (recall.py lines 133-144). -/
def recall_param_check (num_classes : Option Int) (average : Option String) :
    Except String Unit :=
  if ¬(average = some "micro" ∨ average = some "macro" ∨ average = some "weighted" ∨
        average = none) then
    .error ("`average` was not in the allowed values of " ++
      "(\x27micro\x27, \x27macro\x27, \x27weighted\x27, None), got " ++
      (match average with | some s => s | none => "None") ++ ".")
  else if average ≠ some "micro" ∧ (num_classes = none ∨ num_classes.getD 1 ≤ 0) then
    .error ("`num_classes` should be a positive number when average=" ++
      (match average with | some s => s | none => "None") ++ ", got num_classes=" ++
      (match num_classes with | some n => toString n | none => "None") ++ ".")
  else
    .ok ()

/-- Embedding of `_recall_update_input_check` (recall.py lines 147-165), stated on shapes:
the source reads only `input.size(0)`, `target.size(0)`, `ndim` and `shape`. -/
def recall_update_input_check (ishape tshape : List Nat) (num_classes : Option Int) :
    Except String Unit :=
  if ishape.headD 0 ≠ tshape.headD 0 then
    .error ("The `input` and `target` should have the same first dimension, " ++
      "got shapes " ++ shapeToString ishape ++ " and " ++ shapeToString tshape ++ ".")
  else if tshape.length ≠ 1 then
    .error ("`target` should be a one-dimensional tensor, got shape " ++
      shapeToString tshape ++ ".")
  else if ishape.length ≠ 1 ∧
      ¬(ishape.length = 2 ∧ (num_classes = none ∨ num_classes = some (ishape.getD 1 0 : Int))) then
    .error ("`input` should have shape (num_samples,) or (num_samples, num_classes), " ++
      "got " ++ shapeToString ishape ++ ".")
  else
    .ok ()

/-- The labels of the pairs where prediction equals target: the data of
`input[input == target]` in `_recall_update`. -/
def matchedLabels (inp tgt : List Int) : List Int :=
  (List.zip inp tgt).filterMap (fun p => if p.1 = p.2 then some p.1 else none)

/-- Embedding of `_recall_update` (recall.py lines 70-97).  After the input check, a 2-D
input is reduced to hard labels by arg-max; `micro` accumulates the scalar
match count and the sample count, any other average builds the three
per-class histograms over `[0, num_classes - 1]` with `torch.histc`.
The `assert isinstance(num_classes, int)` is the `.error` on `none`. -/
def recall_update (input target : Tensor) (num_classes : Option Int)
    (average : Option String) : Except String RecallState := do
  recall_update_input_check input.shape target.shape num_classes
  let inp : List Int := predLabels input
  let tgt : List Int := match target with
    | .t1 d => d
    | .t2 _ _ => []  -- unreachable: the input check rejects a 2-D target
  if average = some "micro" then
    return .scalarS ((List.zip inp tgt).countP (fun p => decide (p.1 = p.2)) : ℚ)
      (tgt.length : ℚ) (tgt.length : ℚ)
  else
    match num_classes with
    | none => .error "`num_classes` must be an integer, but received None."
    | some n =>
        return .vectorS (histcInt (matchedLabels inp tgt) n.toNat)
          (histcInt tgt n.toNat) (histcInt inp n.toNat)

/-- Elementwise binary op with 1-D broadcasting: equal lengths zip, a
singleton broadcasts against the other operand, anything else is the torch
size-mismatch `RuntimeError`. -/
def broadcastOp (f : FVal → FVal → FVal) (a b : List FVal) : Except String (List FVal) :=
  if a.length = b.length then .ok (List.zipWith f a b)
  else if a.length = 1 then .ok (b.map (f (a.headD .nan)))
  else if b.length = 1 then .ok (a.map (fun x => f x (b.headD .nan)))
  else .error ("The size of tensor a (" ++ toString a.length ++
    ") must match the size of tensor b (" ++ toString b.length ++
    ") at non-singleton dimension 0")

/-- Boolean-mask selection `t[mask]` (mask and tensor have equal length at
every call site: all three count vectors have `num_classes` entries). -/
def maskSelect (xs : List ℚ) (mask : List Bool) : List ℚ :=
  ((List.zip xs mask).filter (fun p => p.2)).map (fun p => p.1)

/-- Embedding of `_recall_compute` (recall.py lines 100-130).  Under `macro`/`weighted`
only `num_tp` is filtered by the mask (line 109) while `num_labels` keeps all
`num_classes` entries, so the division on line 111 broadcasts the two.  The
`Bool` is `true` iff the NaN warning of lines 114-119 fires, in which case
`torch.nan_to_num` is applied.  0-dim count states arise only on the micro
update path, where the masking branch is skipped and the final `match`
returns the single ratio for every `average` (mean of a 0-dim tensor is
itself). -/
def recall_compute (st : RecallState) (average : Option String) :
    Except String (RTensor × Bool) :=
  match st with
  | .scalarS tp lbl _pred =>
      let r := fdiv (.num tp) (.num lbl)
      let warned := isNanF r
      let r := if warned then nanToNum r else r
      .ok (.scalar r, warned)
  | .vectorS tp lbl pred =>
      let mask := List.zipWith (fun (l p : ℚ) => decide (l ≠ 0) || decide (p ≠ 0)) lbl pred
      let tpm := if average = some "macro" ∨ average = some "weighted" then
          maskSelect tp mask
        else tp
      match broadcastOp fdiv (tpm.map FVal.num) (lbl.map FVal.num) with
      | .error e => .error e
      | .ok recall0 =>
          let warned := recall0.any isNanF
          let recallV := if warned then recall0.map nanToNum else recall0
          if average = some "micro" then .ok (.vector recallV, warned)
          else if average = some "macro" then .ok (.scalar (fmean recallV), warned)
          else if average = some "weighted" then
            let lblSum := fsum (lbl.map FVal.num)
            let weights := (maskSelect lbl mask).map (fun l => fdiv (.num l) lblSum)
            match broadcastOp fmul recallV weights with
            | .error e => .error e
            | .ok prods => .ok (.scalar (fsum prods), warned)
          else .ok (.vector recallV, warned)

/-- Embedding of `multiclass_recall` (recall.py lines 13-67): parameter check, one update,
one compute.  The `Bool` is `true` iff the NaN warning was logged. -/
def multiclass_recall (input target : Tensor) (num_classes : Option Int)
    (average : Option String) : Except String (RTensor × Bool) := do
  recall_param_check num_classes average
  let st ← recall_update input target num_classes average
  recall_compute st average

/-- One update batch for the Accuracy metric: predicted labels (after any
arg-max reduction) and target labels. -/
abbrev Batch := List Int × List Int

/-- Elementwise tensor addition (`+=` on equal-shape state tensors). -/
def addL (a b : List ℚ) : List ℚ := List.zipWith (· + ·) a b

/-- The state of an `Accuracy` instance (accuracy.py lines 77-92):
its immutable configuration and the two state tensors, which are 0-dim
scalars under `micro` (modelled as singleton lists) and length-`num_classes`
vectors otherwise. -/
structure Accuracy where
  average : Option String
  num_classes : Nat
  num_correct : List ℚ
  num_total : List ℚ
deriving DecidableEq, Repr

/-- Embedding of the `Accuracy.__init__` state initialisation (accuracy.py lines 86-92):
zero scalars for `micro`, zero vectors of length `num_classes` otherwise. -/
def accInit (avg : Option String) (n : Nat) : Accuracy :=
  if avg = some "micro" then ⟨avg, n, [0], [0]⟩
  else ⟨avg, n, List.replicate n 0, List.replicate n 0⟩

/-- Modelled from the spec: the `num_correct` contribution of one batch in
`_accuracy_update` (§4.2; `torcheval/metrics/functional/classification/accuracy.py`
is not under `src/`).  micro: the count of matching positions; macro/none: a
per-class vector where class `k` counts the samples with `target_i = k` and
`input_i = target_i`. -/
def accBatchCorrect (avg : Option String) (n : Nat) (b : Batch) : List ℚ :=
  if avg = some "micro" then
    [((List.zip b.1 b.2).countP (fun p => decide (p.1 = p.2)) : ℚ)]
  else
    (List.range n).map
      (fun (k : Nat) => ((List.zip b.1 b.2).countP
        (fun p => decide (p.2 = (k : Int)) && decide (p.1 = p.2)) : ℚ))

/-- Modelled from the spec: the `num_total` contribution of one batch in
`_accuracy_update` (§4.2).  micro: the batch size; macro/none: a per-class
vector where class `k` counts the samples with `target_i = k`. -/
def accBatchTotal (avg : Option String) (n : Nat) (b : Batch) : List ℚ :=
  if avg = some "micro" then [(b.2.length : ℚ)]
  else (List.range n).map (fun (k : Nat) => (b.2.countP (fun x => decide (x = (k : Int))) : ℚ))

/-- Embedding of `Accuracy.update` (accuracy.py lines 94-112): add the batch contribution
onto the state tensors. -/
def accUpdate (s : Accuracy) (b : Batch) : Accuracy :=
  { s with num_correct := addL s.num_correct (accBatchCorrect s.average s.num_classes b),
           num_total := addL s.num_total (accBatchTotal s.average s.num_classes b) }

/-- A stream of `update` calls on one instance. -/
def accFeed (s : Accuracy) (bs : List Batch) : Accuracy := bs.foldl accUpdate s

/-- One step of the `merge_state` loop body (accuracy.py lines 125-127). -/
def accMergeOne (a m : Accuracy) : Accuracy :=
  { a with num_correct := addL a.num_correct m.num_correct,
           num_total := addL a.num_total m.num_total }

/-- Embedding of `Accuracy.merge_state` (accuracy.py lines 123-128): fold the other
instances' state tensors into `self` by elementwise addition. -/
def accMerge (s : Accuracy) (ms : List Accuracy) : Accuracy := ms.foldl accMergeOne s

/-- Modelled from the spec: `_accuracy_compute` (§4.2;
`torcheval/metrics/functional/classification/accuracy.py` is not under
`src/`).  micro: `num_correct / num_total` (NaN when `num_total = 0`);
macro: the mean over classes with `num_total[c] ≠ 0` of the per-class ratios
(classes with zero samples are excluded, NaN via `0/0` when no class
remains); none: the per-class ratio vector, NaN where `num_total[c] = 0`.
Total function: `compute` never raises. -/
def accCompute (s : Accuracy) : RTensor :=
  if s.average = some "micro" then
    .scalar (fdiv (.num (s.num_correct.headD 0)) (.num (s.num_total.headD 0)))
  else if s.average = some "macro" then
    let ratios := (List.zip s.num_correct s.num_total).filterMap
      (fun p => if p.2 = 0 then none else some (p.1 / p.2))
    .scalar (fdiv (.num ratios.sum) (.num (ratios.length : ℚ)))
  else
    .vector ((List.zip s.num_correct s.num_total).map (fun p => fdiv (.num p.1) (.num p.2)))

/-- Embedding of `Accuracy.merge_state` acting on an explicit store of instances, to state
which instances a call mutates: the python loop reads
`metric.num_correct` / `metric.num_total` of each metric in the iterable and
writes only the fields of `self` (slot `i`). -/
def mergeStateHeap (heap : List Accuracy) (i : Nat) (others : List Nat) : List Accuracy :=
  others.foldl
    (fun h j =>
      match h[i]?, h[j]? with
      | some s, some m => h.set i (accMergeOne s m)
      | _, _ => h)
    heap

/-- Modelled from the spec: `_multi_label_accuracy_update` (§4.2;
`torcheval/metrics/functional/classification/accuracy.py` is not under
`src/`).  The input is thresholded (`where(input < threshold, 0, 1)`);
`exact_match` counts the samples whose whole thresholded row equals the
target row, over the number of samples; `hamming` counts matching entries,
over the number of entries. -/
def multi_label_accuracy_update (inp tgt : List (List ℚ)) (threshold : ℚ)
    (criteria : String) : ℚ × ℚ :=
  let binarized := inp.map (fun row => row.map (fun x => if x < threshold then (0 : ℚ) else 1))
  if criteria = "exact_match" then
    (((List.zip binarized tgt).countP (fun p => decide (p.1 = p.2)) : ℚ), (tgt.length : ℚ))
  else
    (((List.zip binarized tgt).map
        (fun p => ((List.zip p.1 p.2).countP (fun q => decide (q.1 = q.2)) : ℚ))).sum,
      ((tgt.map List.length).sum : ℚ))

/-- Embedding of `MultiLabelAccuracy.update` then `compute` (accuracy.py lines 165-194):
the instance holds micro-style scalar counters inherited from `Accuracy`
(`super().__init__()`), so `compute` returns `num_correct / num_total`. -/
def multiLabelAccuracyResult (inp tgt : List (List ℚ)) (threshold : ℚ)
    (criteria : String) : RTensor :=
  let c := multi_label_accuracy_update inp tgt threshold criteria
  accCompute { accInit (some "micro") 0 with
    num_correct := addL [0] [c.1], num_total := addL [0] [c.2] }

/-- Membership of a label in the histogram range `[0, num_classes - 1]`. -/
def inRange (n : Nat) (x : Int) : Bool := decide (0 ≤ x) && decide (x < (n : Int))

/-- C1: the claim says that under `average = 'macro'` every class with
`num_label[c] = 0` and `num_prediction[c] = 0` is masked out and the result
is the unweighted mean of the remaining per-class recalls, for every
accumulated count state including those where at least one class is masked
out.  The code masks only `num_tp` (recall.py line 109) and then divides by
the unmasked `num_labels` (line 111), so as soon as a class is masked out the
two tensors have different lengths and the division raises the broadcasting
size-mismatch error instead of returning the masked mean: on
`input = [0, 1]`, `target = [0, 1]`, `num_classes = 4` (classes 2 and 3
masked out, intended macro recall `1`), `multiclass_recall` raises. -/
theorem recall_compute_macro_mask_size_mismatch :
    multiclass_recall (.t1 [0, 1]) (.t1 [0, 1]) (some 4) (some "macro") =
      .error "The size of tensor a (2) must match the size of tensor b (4) at non-singleton dimension 0" := by
  norm_num +decide [multiclass_recall, recall_param_check, recall_update, recall_update_input_check,
    recall_compute, predLabels, Tensor.shape, histcInt, matchedLabels, maskSelect, broadcastOp,
    fdiv, fadd, fsum, fmean, isNanF, nanToNum, List.range_succ, Except.bind, Bind.bind, pure,
    Except.pure, List.zip, Int.toNat, List.zipWith, List.singleton, Function.comp,
    List.countP_cons, List.countP_nil, List.filterMap_cons, List.filterMap_nil,
    List.foldl_cons, List.foldl_nil, List.any_cons, List.any_nil, List.filter_cons,
    List.filter_nil]

/-- C3: the claim says that whenever some class has `num_label[c] = 0`,
recall's compute replaces the NaN ratio with `0`, emits a warning, and
returns a fully-populated result.  Because the mask of recall.py line 109 is
applied to `num_tp` only, on `input = [0]`, `target = [0]`,
`num_classes = 3`, `average = 'weighted'` the masked singleton `num_tp`
broadcasts against the full 3-element `num_labels`, producing
`[1, 1/0, 1/0] = [1, inf, inf]`: no NaN is seen, no warning is emitted
(the returned flag is `false`), no zero substitution happens, and the final
scalar is `inf` instead of the intended weighted recall `1`. -/
theorem recall_weighted_zero_label_inf_no_warning :
    multiclass_recall (.t1 [0]) (.t1 [0]) (some 3) (some "weighted") =
      .ok (.scalar .inf, false) := by
  norm_num +decide [multiclass_recall, recall_param_check, recall_update, recall_update_input_check,
    recall_compute, predLabels, Tensor.shape, histcInt, matchedLabels, maskSelect, broadcastOp,
    fdiv, fadd, fmul, fsum, fmean, isNanF, nanToNum, List.range_succ, Except.bind, Bind.bind,
    pure, Except.pure, List.zip, Int.toNat, List.zipWith, List.singleton, Function.comp,
    List.countP_cons, List.countP_nil, List.filterMap_cons, List.filterMap_nil,
    List.foldl_cons, List.foldl_nil, List.any_cons, List.any_nil, List.filter_cons,
    List.filter_nil]

/-- C7: for `MultiLabelAccuracy` with the default threshold `0.5`,
`exact_match` counts a sample as correct only when its whole thresholded row
equals the target row and divides by the number of samples, while `hamming`
counts matching entries and divides by the number of entries; on
`input = [[0,1],[1,1],[0,0],[0,1]]` and `target = [[0,1],[1,0],[0,0],[1,1]]`
compute returns `0.75` under `hamming` (6 of 8 entries) and `0.5` under
`exact_match` (rows 1 and 3 of 4). -/
theorem multi_label_accuracy_exact_match_hamming_values :
    multiLabelAccuracyResult [[0,1],[1,1],[0,0],[0,1]] [[0,1],[1,0],[0,0],[1,1]]
        (1/2) "hamming" = .scalar (.num (3/4)) ∧
    multiLabelAccuracyResult [[0,1],[1,1],[0,0],[0,1]] [[0,1],[1,0],[0,0],[1,1]]
        (1/2) "exact_match" = .scalar (.num (1/2)) ∧
    multi_label_accuracy_update [[0,1],[1,1],[0,0],[0,1]] [[0,1],[1,0],[0,0],[1,1]]
        (1/2) "hamming" = (6, 8) ∧
    multi_label_accuracy_update [[0,1],[1,1],[0,0],[0,1]] [[0,1],[1,0],[0,0],[1,1]]
        (1/2) "exact_match" = (2, 4) := by
  refine ⟨?_, ?_, ?_, ?_⟩ <;>
    norm_num +decide [multiLabelAccuracyResult, multi_label_accuracy_update, accCompute, accInit,
      addL, fdiv, List.zip, List.zipWith, List.countP_cons, List.countP_nil]

/-- C10 counterexample: the claim says every sample whose target or predicted
label lies outside `[0, num_classes - 1]` is excluded from all three
histogram counts.  (1) With `num_classes = 1` the call
`torch.histc(…, bins=1, min=0, max=0)` falls back to the data's own range, so
the out-of-range sample `input = target = 3` is counted
(`num_tp = num_label = num_prediction = [1]`, not `[0]`).  (2) With
`num_classes = 2`, `input = [0]`, `target = [5]`: the sample's target is out
of range, yet its in-range prediction is still counted
(`num_prediction = [1, 0]`, not `[0, 0]`). -/
theorem recall_update_out_of_range_counted_cex :
    recall_update (.t1 [3]) (.t1 [3]) (some 1) none =
      .ok (.vectorS [1] [1] [1]) ∧
    recall_update (.t1 [0]) (.t1 [5]) (some 2) none =
      .ok (.vectorS [0, 0] [0, 0] [1, 0]) := by
  refine ⟨?_, ?_⟩ <;>
    norm_num +decide [recall_update, recall_update_input_check, predLabels, Tensor.shape,
      histcInt, matchedLabels, List.range_succ, Except.bind, Bind.bind, pure, Except.pure,
      List.zip, Int.toNat, List.zipWith, List.singleton, Function.comp, List.countP_cons,
      List.countP_nil, List.filterMap_cons, List.filterMap_nil]

/-- C5: construction-time parameter validation of the confusion-count metric:
`_recall_param_check` succeeds exactly when `average` is one of
micro/macro/weighted/None and, unless `average = 'micro'`, `num_classes` is a
given positive integer; and whenever it fails, the functional form
`multiclass_recall` raises that configuration error before any state is
built or updated. -/
theorem recall_param_check_ok_iff (nc : Option Int) (avg : Option String) :
    (recall_param_check nc avg = .ok () ↔
      ((avg = some "micro" ∨ avg = some "macro" ∨ avg = some "weighted" ∨ avg = none) ∧
       (avg = some "micro" ∨ ∃ n : Int, nc = some n ∧ 0 < n)))
  ∧ (∀ (e : String) (input target : Tensor),
      recall_param_check nc avg = .error e →
      multiclass_recall input target nc avg = .error e) := by
  constructor
  · constructor
    · intro hok
      unfold recall_param_check at hok
      by_cases hA : (avg = some "micro" ∨ avg = some "macro" ∨ avg = some "weighted" ∨ avg = none)
      · rw [if_neg (not_not_intro hA)] at hok
        by_cases hB : avg ≠ some "micro" ∧ (nc = none ∨ nc.getD 1 ≤ 0)
        · rw [if_pos hB] at hok
          exact Except.noConfusion hok
        · refine ⟨hA, ?_⟩
          by_cases hm : avg = some "micro"
          · exact Or.inl hm
          · push_neg at hB
            have h3 := hB hm
            push_neg at h3
            cases nc with
            | none => exact absurd rfl h3.1
            | some n =>
                refine Or.inr ⟨n, rfl, ?_⟩
                have h4 := h3.2
                simp only [Option.getD_some, not_le] at h4
                exact h4
      · rw [if_pos hA] at hok
        exact Except.noConfusion hok
    · intro hcond
      unfold recall_param_check
      rw [if_neg (not_not_intro hcond.1)]
      have hB : ¬(avg ≠ some "micro" ∧ (nc = none ∨ nc.getD 1 ≤ 0)) := by
        rintro ⟨hne, hor⟩
        rcases hcond.2 with hm | ⟨n, hn, hpos⟩
        · exact hne hm
        · subst hn
          rcases hor with hnone | hle
          · exact Option.noConfusion hnone
          · simp only [Option.getD_some] at hle
            omega
      rw [if_neg hB]
  · intro e input target h
    unfold multiclass_recall
    simp [h, Bind.bind, Except.bind]

/-- C5 witness: valid parameters pass, and invalid `num_classes = 0` with
`average = 'macro'` makes the functional form raise the configuration
error. -/
theorem recall_param_check_ok_iff_witness :
    recall_param_check (some 4) (some "macro") = .ok () ∧
    multiclass_recall (.t1 []) (.t1 []) (some 0) (some "macro") =
      .error "`num_classes` should be a positive number when average=macro, got num_classes=0." := by
  constructor
  · exact (recall_param_check_ok_iff (some 4) (some "macro")).1.mpr
      ⟨by tauto, Or.inr ⟨4, rfl, by norm_num⟩⟩
  · exact (recall_param_check_ok_iff (some 0) (some "macro")).2 _ (.t1 []) (.t1 [])
      (by norm_num +decide [recall_param_check])

/-- C4: the shape validation run on every update of the confusion-count
metric: `_recall_update_input_check` accepts exactly when the first
dimensions agree, the target is 1-D, and the input is 1-D, or 2-D with a
class dimension matching `num_classes` when that is configured; every
rejected call carries the offending shape values in its message, and in
particular an update with a rank-2 target raises the shape-violation error
citing that exact shape. -/
theorem recall_update_input_check_ok_iff (ishape tshape : List Nat) (nc : Option Int) :
    (recall_update_input_check ishape tshape nc = .ok () ↔
      (ishape.headD 0 = tshape.headD 0 ∧ tshape.length = 1 ∧
        (ishape.length = 1 ∨ (ishape.length = 2 ∧
          (nc = none ∨ nc = some (ishape.getD 1 0 : Int))))))
  ∧ (∀ (d : List Int) (rows : List (List ℚ)) (cols : Nat) (avg : Option String),
      d.length = rows.length →
      recall_update (.t1 d) (.t2 rows cols) nc avg =
        .error ("`target` should be a one-dimensional tensor, got shape " ++
          shapeToString [rows.length, cols] ++ ".")) := by
  constructor
  · constructor
    · intro hok
      unfold recall_update_input_check at hok
      by_cases h1 : ishape.headD 0 = tshape.headD 0
      · rw [if_neg (not_not_intro h1)] at hok
        by_cases h2 : tshape.length = 1
        · rw [if_neg (not_not_intro h2)] at hok
          refine ⟨h1, h2, ?_⟩
          by_cases h3 : ishape.length = 1
          · exact Or.inl h3
          · by_cases h4 : ishape.length = 2 ∧
                (nc = none ∨ nc = some (ishape.getD 1 0 : Int))
            · exact Or.inr h4
            · rw [if_pos ⟨h3, h4⟩] at hok
              exact Except.noConfusion hok
        · rw [if_pos h2] at hok
          exact Except.noConfusion hok
      · rw [if_pos h1] at hok
        exact Except.noConfusion hok
    · rintro ⟨h1, h2, h3⟩
      unfold recall_update_input_check
      rw [if_neg (not_not_intro h1), if_neg (not_not_intro h2)]
      have h4 : ¬(ishape.length ≠ 1 ∧
          ¬(ishape.length = 2 ∧ (nc = none ∨ nc = some (ishape.getD 1 0 : Int)))) := by
        rintro ⟨hne, hnot⟩
        rcases h3 with hone | htwo
        · exact hne hone
        · exact hnot htwo
      rw [if_neg h4]
  · intro d rows cols avg hlen
    unfold recall_update
    have hchk : recall_update_input_check (Tensor.t1 d).shape (Tensor.t2 rows cols).shape nc =
        .error ("`target` should be a one-dimensional tensor, got shape " ++
          shapeToString [rows.length, cols] ++ ".") := by
      unfold recall_update_input_check Tensor.shape
      rw [if_neg (not_not_intro (by simpa using hlen))]
      rw [if_pos (by norm_num)]
    simp only [hchk, Bind.bind, Except.bind]

/-- C4 witness: a rank-2 target of shape `(2, 1)` is rejected with the exact
shape in the message, and a matching 1-D pair passes the check. -/
theorem recall_update_input_check_ok_iff_witness :
    recall_update (.t1 [0, 1]) (.t2 [[1], [2]] 1) none none =
      .error "`target` should be a one-dimensional tensor, got shape torch.Size([2, 1])." ∧
    recall_update_input_check [4] [4] none = .ok () := by
  constructor
  · have h := (recall_update_input_check_ok_iff [2] [2, 1] none).2 [0, 1] [[1], [2]] 1 none
      (by norm_num)
    rw [h]
    norm_num +decide [shapeToString, natListRepr]
  · exact (recall_update_input_check_ok_iff [4] [4] none).1.mpr (by norm_num)

/-- C6: for every shape-valid, non-empty input/target pair,
`multiclass_recall` with `average = 'micro'` reduces a 2-D input to hard
labels by arg-max along the class axis (`predLabels`) and returns exactly
the number of positions where the reduced input equals the target, divided
by the number of samples; no NaN warning is emitted. -/
theorem multiclass_recall_micro_ratio (input : Tensor) (tgt : List Int) (nc : Option Int)
    (hne : tgt ≠ [])
    (hchk : recall_update_input_check input.shape [tgt.length] nc = .ok ()) :
    multiclass_recall input (.t1 tgt) nc (some "micro") =
      .ok (.scalar (.num (((List.zip (predLabels input) tgt).countP
          (fun p => decide (p.1 = p.2)) : ℚ) / (tgt.length : ℚ))), false) := by
  have hparam : recall_param_check nc (some "micro") = .ok () := by
    unfold recall_param_check
    rw [if_neg (not_not_intro (Or.inl rfl))]
    rw [if_neg (by rintro ⟨hne', -⟩; exact hne' rfl)]
  have hshape : (Tensor.t1 tgt).shape = [tgt.length] := rfl
  have hupd : recall_update input (.t1 tgt) nc (some "micro") =
      .ok (.scalarS ((List.zip (predLabels input) tgt).countP
        (fun p => decide (p.1 = p.2)) : ℚ) (tgt.length : ℚ) (tgt.length : ℚ)) := by
    unfold recall_update
    rw [hshape, hchk]
    simp [Bind.bind, Except.bind, pure, Except.pure]
  have hlen : ((tgt.length : ℚ)) ≠ 0 := by
    have : tgt.length ≠ 0 := fun h => hne (List.eq_nil_of_length_eq_zero h)
    exact_mod_cast this
  unfold multiclass_recall
  rw [hparam]
  simp only [Bind.bind, Except.bind, hupd]
  unfold recall_compute
  simp only [fdiv, if_neg hlen]
  simp [isNanF]

/-- C6 witness: on `input = [0, 2, 1, 3]`, `target = [0, 1, 2, 3]` the micro
recall is `2/4 = 0.5`. -/
theorem multiclass_recall_micro_ratio_witness :
    multiclass_recall (.t1 [0, 2, 1, 3]) (.t1 [0, 1, 2, 3]) none (some "micro") =
      .ok (.scalar (.num (1/2)), false) := by
  have h := multiclass_recall_micro_ratio (.t1 [0, 2, 1, 3]) [0, 1, 2, 3] none (by decide)
    (by norm_num +decide [recall_update_input_check, Tensor.shape])
  rw [h]
  norm_num +decide [predLabels, List.zip, List.zipWith, List.countP_cons, List.countP_nil]

/-- On the all-zero fresh state, macro's class filter keeps nothing. -/
theorem filterMap_ratio_zip_replicate_zero (n : Nat) :
    ((List.zip (List.replicate n (0 : ℚ)) (List.replicate n (0 : ℚ))).filterMap
      (fun p => if p.2 = 0 then none else some (p.1 / p.2))) = [] := by
  induction n with
  | zero => rfl
  | succ m ih => simp [List.replicate_succ, ih]

/-- On the all-zero fresh state, the per-class ratio vector is all NaN. -/
theorem map_ratio_zip_replicate_zero (n : Nat) :
    ((List.zip (List.replicate n (0 : ℚ)) (List.replicate n (0 : ℚ))).map
      (fun p => fdiv (.num p.1) (.num p.2))) = List.replicate n FVal.nan := by
  induction n with
  | zero => rfl
  | succ m ih => simp [List.replicate_succ, fdiv, ih]

/-- C8: a freshly constructed `Accuracy` instance (any valid average mode and
any `num_classes`) computes NaN without raising: a NaN scalar for `micro`
and `macro`, a NaN-filled per-class vector for `average = None`
(`accCompute` is a total function, so no exception is possible). -/
theorem accuracy_fresh_compute_nan (avg : Option String) (n : Nat)
    (h : avg = some "micro" ∨ avg = some "macro" ∨ avg = none) :
    accCompute (accInit avg n) =
      (if avg = none then .vector (List.replicate n .nan) else .scalar .nan) := by
  rcases h with h | h | h <;> subst h
  · simp [accInit, accCompute, fdiv]
  · simp [accInit, accCompute, filterMap_ratio_zip_replicate_zero, fdiv, fsum, fmean]
  · simp [accInit, accCompute, map_ratio_zip_replicate_zero, fdiv]

/-- C8 witness: fresh instances at concrete configurations. -/
theorem accuracy_fresh_compute_nan_witness :
    accCompute (accInit none 2) = .vector [.nan, .nan] ∧
    accCompute (accInit (some "micro") 0) = .scalar .nan := by
  constructor
  · have h := accuracy_fresh_compute_nan none 2 (by tauto)
    simpa [List.replicate] using h
  · have h := accuracy_fresh_compute_nan (some "micro") 0 (by tauto)
    simpa using h

/-- For `num_classes ≥ 2`, dropping the out-of-range values of a label list
leaves its histogram unchanged: out-of-range values contribute to no bin. -/
theorem histcInt_filter_inRange (l : List Int) (n : Nat) (hn : 2 ≤ n) :
    histcInt (l.filter (inRange n)) n = histcInt l n := by
  have h1 : n ≠ 1 := by omega
  unfold histcInt
  rw [if_neg h1, if_neg h1]
  apply List.map_congr_left
  intro c hc
  have hcn : (c : Int) < (n : Int) := by exact_mod_cast List.mem_range.mp hc
  congr 1
  rw [List.countP_filter]
  apply List.countP_congr
  intro x hx
  simp only [Bool.and_eq_true, decide_eq_true_eq, inRange]
  constructor
  · rintro ⟨h, -⟩
    exact h
  · intro h
    subst h
    exact ⟨rfl, by exact_mod_cast Nat.zero_le c, hcn⟩

/-- C10 amended: in the non-micro update path with `num_classes ≥ 2`, no
label value is validated against `num_classes` and no error is raised;
each histogram (`num_label` over targets, `num_prediction` over predicted
labels, `num_tp` over matched labels) silently ignores the values outside
`[0, num_classes - 1]` — filtering them away does not change any count.
(The original claim fails for `num_classes = 1`, where `torch.histc`'s
`min = max = 0` fallback counts every value, and an out-of-range target does
not stop the same sample's in-range prediction from being counted.) -/
theorem recall_update_out_of_range_excluded_amended (inp tgt : List Int) (n : Nat)
    (avg : Option String) (hn : 2 ≤ n) (hlen : inp.length = tgt.length)
    (havg : avg ≠ some "micro") :
    recall_update (.t1 inp) (.t1 tgt) (some (n : Int)) avg =
      .ok (.vectorS (histcInt (matchedLabels inp tgt) n) (histcInt tgt n)
        (histcInt inp n)) ∧
    histcInt (tgt.filter (inRange n)) n = histcInt tgt n ∧
    histcInt (inp.filter (inRange n)) n = histcInt inp n ∧
    histcInt ((matchedLabels inp tgt).filter (inRange n)) n =
      histcInt (matchedLabels inp tgt) n := by
  refine ⟨?_, histcInt_filter_inRange _ _ hn, histcInt_filter_inRange _ _ hn,
    histcInt_filter_inRange _ _ hn⟩
  have hchk : recall_update_input_check [inp.length] [tgt.length] (some (n : Int)) = .ok () := by
    unfold recall_update_input_check
    rw [if_neg (not_not_intro (by simpa using hlen))]
    rw [if_neg (not_not_intro (show [tgt.length].length = 1 from rfl))]
    rw [if_neg (by rintro ⟨h, -⟩; exact h rfl)]
  unfold recall_update
  simp only [Tensor.shape, hchk, Bind.bind, Except.bind, if_neg havg, predLabels,
    Int.toNat_natCast, pure, Except.pure]

/-- C10 amended witness: `num_classes = 2`, `input = [0, 5]`,
`target = [0, -1]`: the update succeeds, and the out-of-range values `5`
and `-1` contribute to no bin. -/
theorem recall_update_out_of_range_excluded_amended_witness :
    recall_update (.t1 [0, 5]) (.t1 [0, -1]) (some ((2 : Nat) : Int)) none =
      .ok (.vectorS (histcInt (matchedLabels [0, 5] [0, -1]) 2) (histcInt [0, -1] 2)
        (histcInt [0, 5] 2)) ∧
    histcInt (([0, -1] : List Int).filter (inRange 2)) 2 = histcInt [0, -1] 2 ∧
    histcInt (([0, 5] : List Int).filter (inRange 2)) 2 = histcInt [0, 5] 2 ∧
    histcInt ((matchedLabels [0, 5] [0, -1]).filter (inRange 2)) 2 =
      histcInt (matchedLabels [0, 5] [0, -1]) 2 :=
  recall_update_out_of_range_excluded_amended [0, 5] [0, -1] 2 none (by norm_num)
    (by norm_num) (by simp)

/-- C9: `merge_state` mutates no instance in the iterable: after
`mergeStateHeap heap i others`, every slot other than `i` (in particular
every slot listed in `others`) still holds exactly its old state, and slot
`i` holds the old `self` with the others' `num_correct`/`num_total` folded
in by elementwise addition (`accMerge`). -/
theorem merge_state_frame (heap : List Accuracy) (i : Nat) (others : List Nat)
    (hi : i < heap.length)
    (hothers : ∀ j ∈ others, j ≠ i ∧ j < heap.length) :
    (∀ j, j ≠ i → (mergeStateHeap heap i others)[j]? = heap[j]?) ∧
    (mergeStateHeap heap i others)[i]? =
      some (accMerge (heap.getD i (accInit none 0))
        (others.map (fun j => heap.getD j (accInit none 0)))) := by
  induction others generalizing heap with
  | nil =>
      refine ⟨fun j _ => rfl, ?_⟩
      simp [mergeStateHeap, accMerge, List.getD_eq_getElem?_getD, List.getElem?_eq_getElem hi]
  | cons j rest ih =>
      obtain ⟨hji, hjlen⟩ := hothers j (by simp)
      have hfi : heap[i]? = some (heap.getD i (accInit none 0)) := by
        simp [List.getD_eq_getElem?_getD, List.getElem?_eq_getElem hi]
      have hfj : heap[j]? = some (heap.getD j (accInit none 0)) := by
        simp [List.getD_eq_getElem?_getD, List.getElem?_eq_getElem hjlen]
      have hstep : mergeStateHeap heap i (j :: rest) =
          mergeStateHeap
            (heap.set i (accMergeOne (heap.getD i (accInit none 0))
              (heap.getD j (accInit none 0)))) i rest := by
        unfold mergeStateHeap
        rw [List.foldl_cons, hfi, hfj]
      have hi' : i < (heap.set i (accMergeOne (heap.getD i (accInit none 0))
          (heap.getD j (accInit none 0)))).length := by simpa using hi
      have hothers' : ∀ k ∈ rest, k ≠ i ∧
          k < (heap.set i (accMergeOne (heap.getD i (accInit none 0))
            (heap.getD j (accInit none 0)))).length := by
        intro k hk
        obtain ⟨h1, h2⟩ := hothers k (by simp [hk])
        exact ⟨h1, by simpa using h2⟩
      obtain ⟨ih1, ih2⟩ := ih _ hi' hothers'
      constructor
      · intro k hk
        rw [hstep, ih1 k hk, List.getElem?_set_ne (Ne.symm hk)]
      · rw [hstep, ih2]
        have hgi : (heap.set i (accMergeOne (heap.getD i (accInit none 0))
            (heap.getD j (accInit none 0)))).getD i (accInit none 0) =
            accMergeOne (heap.getD i (accInit none 0)) (heap.getD j (accInit none 0)) := by
          simp [List.getD_eq_getElem?_getD, List.getElem?_set_self, hi]
        have hgrest : rest.map (fun k => (heap.set i (accMergeOne (heap.getD i (accInit none 0))
            (heap.getD j (accInit none 0)))).getD k (accInit none 0)) =
            rest.map (fun k => heap.getD k (accInit none 0)) := by
          apply List.map_congr_left
          intro k hk
          have hki : k ≠ i := (hothers k (by simp [hk])).1
          simp [List.getD_eq_getElem?_getD, List.getElem?_set_ne (Ne.symm hki)]
        rw [hgi, hgrest]
        simp [accMerge, List.foldl_cons]

/-- C9 witness: a two-slot heap, merging slot 1 into slot 0: slot 1 is
unchanged and slot 0 receives the elementwise sums. -/
theorem merge_state_frame_witness :
    (mergeStateHeap [accFeed (accInit (some "micro") 0) [([0], [0])],
        accFeed (accInit (some "micro") 0) [([1], [0])]] 0 [1])[1]? =
      some (accFeed (accInit (some "micro") 0) [([1], [0])]) ∧
    (mergeStateHeap [accFeed (accInit (some "micro") 0) [([0], [0])],
        accFeed (accInit (some "micro") 0) [([1], [0])]] 0 [1])[0]? =
      some (accMerge
        (([accFeed (accInit (some "micro") 0) [([0], [0])],
          accFeed (accInit (some "micro") 0) [([1], [0])]]).getD 0 (accInit none 0))
        ([1].map (fun j => ([accFeed (accInit (some "micro") 0) [([0], [0])],
          accFeed (accInit (some "micro") 0) [([1], [0])]]).getD j (accInit none 0)))) := by
  have h := merge_state_frame
    [accFeed (accInit (some "micro") 0) [([0], [0])],
     accFeed (accInit (some "micro") 0) [([1], [0])]] 0 [1]
    (by norm_num) (by norm_num)
  exact ⟨h.1 1 (by norm_num), h.2⟩

theorem addL_assoc (a b c : List ℚ) : addL (addL a b) c = addL a (addL b c) := by
  induction a generalizing b c with
  | nil => simp [addL]
  | cons x xs ih =>
      cases b with
      | nil => simp [addL]
      | cons y ys =>
          cases c with
          | nil => simp [addL]
          | cons z zs =>
              have h := ih ys zs
              simp only [addL] at h
              simp [addL, add_assoc, h]

theorem addL_comm (a b : List ℚ) : addL a b = addL b a := by
  induction a generalizing b with
  | nil => cases b <;> simp [addL]
  | cons x xs ih =>
      cases b with
      | nil => simp [addL]
      | cons y ys =>
          have h := ih ys
          simp only [addL] at h
          simp [addL, add_comm, h]

theorem addL_right_comm (s a b : List ℚ) : addL (addL s a) b = addL (addL s b) a := by
  rw [addL_assoc, addL_assoc, addL_comm a b]

/-- Folding elementwise addition is invariant under permutations of the
summand list: merge order and batch order cannot change accumulated state. -/
theorem foldl_addL_perm {l₁ l₂ : List (List ℚ)} (h : l₁.Perm l₂) :
    ∀ s, l₁.foldl addL s = l₂.foldl addL s := by
  induction h with
  | nil => intro s; rfl
  | cons x _ ih => intro s; simp only [List.foldl_cons]; exact ih _
  | swap x y l => intro s; simp only [List.foldl_cons]; rw [addL_right_comm]
  | trans _ _ ih₁ ih₂ => intro s; rw [ih₁ s, ih₂ s]

theorem foldl_addL_addL (v w : List ℚ) (l : List (List ℚ)) :
    l.foldl addL (addL v w) = addL v (l.foldl addL w) := by
  induction l generalizing w with
  | nil => rfl
  | cons a t ih =>
      simp only [List.foldl_cons]
      rw [addL_assoc]
      exact ih (addL w a)

theorem addL_replicate_zero (v : List ℚ) : addL v (List.replicate v.length 0) = v := by
  induction v with
  | nil => rfl
  | cons x xs ih => simpa [addL, List.replicate_succ] using ih

theorem addL_length (a b : List ℚ) : (addL a b).length = min a.length b.length := by
  simp [addL]

theorem foldl_addL_length (L : Nat) (s : List ℚ) (l : List (List ℚ))
    (hs : s.length = L) (hl : ∀ x ∈ l, x.length = L) : (l.foldl addL s).length = L := by
  induction l generalizing s with
  | nil => simpa using hs
  | cons a t ih =>
      simp only [List.foldl_cons]
      refine ih (addL s a) ?_ (fun x hx => hl x (by simp [hx]))
      simp [addL_length, hs, hl a (by simp)]

/-- Merging the partial sums of several zero-initialised folds equals one
fold over the concatenation, provided all summands share the length `L`. -/
theorem foldl_addL_of_parts (L : Nat) (parts : List (List (List ℚ))) (A : List ℚ)
    (hA : A.length = L) (hparts : ∀ p ∈ parts, ∀ x ∈ p, x.length = L) :
    (parts.map (fun p => p.foldl addL (List.replicate L 0))).foldl addL A =
      parts.flatten.foldl addL A := by
  induction parts generalizing A with
  | nil => rfl
  | cons p t ih =>
      simp only [List.map_cons, List.foldl_cons, List.flatten_cons]
      rw [List.foldl_append]
      have h1 : addL A (p.foldl addL (List.replicate L 0)) = p.foldl addL A := by
        rw [← foldl_addL_addL]
        have hz : addL A (List.replicate L 0) = A := by
          rw [← hA]
          exact addL_replicate_zero A
        rw [hz]
      rw [h1]
      refine ih (p.foldl addL A) ?_ (fun q hq => hparts q (by simp [hq]))
      exact foldl_addL_length L A p hA (hparts p (by simp))

theorem accFeed_nil (s : Accuracy) : accFeed s [] = s := rfl

theorem accFeed_cons (s : Accuracy) (b : Batch) (t : List Batch) :
    accFeed s (b :: t) = accFeed (accUpdate s b) t := rfl

theorem accInit_average (avg : Option String) (n : Nat) : (accInit avg n).average = avg := by
  unfold accInit
  split_ifs <;> rfl

theorem accInit_num_classes (avg : Option String) (n : Nat) :
    (accInit avg n).num_classes = n := by
  unfold accInit
  split_ifs <;> rfl

theorem accFeed_config (s : Accuracy) (bs : List Batch) :
    (accFeed s bs).average = s.average ∧ (accFeed s bs).num_classes = s.num_classes := by
  induction bs generalizing s with
  | nil => exact ⟨rfl, rfl⟩
  | cons b t ih => simpa [accFeed_cons, accUpdate] using ih (accUpdate s b)

theorem accFeed_num_correct (s : Accuracy) (bs : List Batch) :
    (accFeed s bs).num_correct =
      (bs.map (accBatchCorrect s.average s.num_classes)).foldl addL s.num_correct := by
  induction bs generalizing s with
  | nil => rfl
  | cons b t ih =>
      rw [accFeed_cons, ih]
      simp [accUpdate, List.foldl_cons]

theorem accFeed_num_total (s : Accuracy) (bs : List Batch) :
    (accFeed s bs).num_total =
      (bs.map (accBatchTotal s.average s.num_classes)).foldl addL s.num_total := by
  induction bs generalizing s with
  | nil => rfl
  | cons b t ih =>
      rw [accFeed_cons, ih]
      simp [accUpdate, List.foldl_cons]

theorem accMerge_config (s : Accuracy) (ms : List Accuracy) :
    (accMerge s ms).average = s.average ∧ (accMerge s ms).num_classes = s.num_classes := by
  induction ms generalizing s with
  | nil => exact ⟨rfl, rfl⟩
  | cons m t ih => simpa [accMerge, List.foldl_cons, accMergeOne] using ih (accMergeOne s m)

theorem accMerge_num_correct (s : Accuracy) (ms : List Accuracy) :
    (accMerge s ms).num_correct =
      (ms.map Accuracy.num_correct).foldl addL s.num_correct := by
  induction ms generalizing s with
  | nil => rfl
  | cons m t ih =>
      show (accMerge (accMergeOne s m) t).num_correct = _
      rw [ih]
      simp [accMergeOne, List.foldl_cons]

theorem accMerge_num_total (s : Accuracy) (ms : List Accuracy) :
    (accMerge s ms).num_total =
      (ms.map Accuracy.num_total).foldl addL s.num_total := by
  induction ms generalizing s with
  | nil => rfl
  | cons m t ih =>
      show (accMerge (accMergeOne s m) t).num_total = _
      rw [ih]
      simp [accMergeOne, List.foldl_cons]

theorem accBatchCorrect_length (avg : Option String) (n : Nat) (b : Batch) :
    (accBatchCorrect avg n b).length = if avg = some "micro" then 1 else n := by
  unfold accBatchCorrect
  split_ifs <;> simp

theorem accBatchTotal_length (avg : Option String) (n : Nat) (b : Batch) :
    (accBatchTotal avg n b).length = if avg = some "micro" then 1 else n := by
  unfold accBatchTotal
  split_ifs <;> simp

theorem accInit_num_correct (avg : Option String) (n : Nat) :
    (accInit avg n).num_correct =
      List.replicate (if avg = some "micro" then 1 else n) 0 := by
  unfold accInit
  split_ifs <;> simp

theorem accInit_num_total (avg : Option String) (n : Nat) :
    (accInit avg n).num_total =
      List.replicate (if avg = some "micro" then 1 else n) 0 := by
  unfold accInit
  split_ifs <;> simp

theorem accuracy_ext (x y : Accuracy) (h1 : x.average = y.average)
    (h2 : x.num_classes = y.num_classes) (h3 : x.num_correct = y.num_correct)
    (h4 : x.num_total = y.num_total) : x = y := by
  cases x
  cases y
  simp_all

/-- C2: for every dataset and every partition of its batches across N
independent `Accuracy` instances (`p0` fed to `self`, the lists of `rest`
fed to the other instances), `merge_state` on `self` followed by `compute`
returns exactly what `compute` returns on a single instance fed all the
batches in one update stream, for every average mode: the accumulated
states themselves coincide. -/
theorem accuracy_merge_compute_eq_single_stream (avg : Option String) (n : Nat)
    (p0 : List Batch) (rest : List (List Batch)) (whole : List Batch)
    (hperm : ((p0 :: rest).flatten).Perm whole) :
    accCompute (accMerge (accFeed (accInit avg n) p0)
        (rest.map (fun bs => accFeed (accInit avg n) bs))) =
      accCompute (accFeed (accInit avg n) whole) := by
  set L : Nat := if avg = some "micro" then 1 else n with hL
  have count_chain : ∀ (f : Batch → List ℚ), (∀ b, (f b).length = L) →
      (rest.map (fun bs => (bs.map f).foldl addL (List.replicate L 0))).foldl addL
        ((p0.map f).foldl addL (List.replicate L 0)) =
      (whole.map f).foldl addL (List.replicate L 0) := by
    intro f hf
    have hparts : ∀ p ∈ rest.map (fun bs => bs.map f), ∀ x ∈ p, x.length = L := by
      intro p hp x hx
      obtain ⟨bs, -, rfl⟩ := List.mem_map.mp hp
      obtain ⟨b, -, rfl⟩ := List.mem_map.mp hx
      exact hf b
    have hA : ((p0.map f).foldl addL (List.replicate L 0)).length = L := by
      refine foldl_addL_length L _ _ (by simp) ?_
      intro x hx
      obtain ⟨b, -, rfl⟩ := List.mem_map.mp hx
      exact hf b
    have h1 : rest.map (fun bs => (bs.map f).foldl addL (List.replicate L 0)) =
        (rest.map (fun bs => bs.map f)).map (fun p => p.foldl addL (List.replicate L 0)) := by
      rw [List.map_map]
      rfl
    rw [h1, foldl_addL_of_parts L _ _ hA hparts, ← List.foldl_append]
    have h3 : p0.map f ++ (rest.map (fun bs => bs.map f)).flatten =
        ((p0 :: rest).flatten).map f := by
      rw [List.map_flatten]
      simp
    rw [h3]
    exact foldl_addL_perm (hperm.map f) _
  have feed_nc : ∀ bs, (accFeed (accInit avg n) bs).num_correct =
      (bs.map (accBatchCorrect avg n)).foldl addL (List.replicate L 0) := by
    intro bs
    rw [accFeed_num_correct, accInit_average, accInit_num_classes, accInit_num_correct, ← hL]
  have feed_nt : ∀ bs, (accFeed (accInit avg n) bs).num_total =
      (bs.map (accBatchTotal avg n)).foldl addL (List.replicate L 0) := by
    intro bs
    rw [accFeed_num_total, accInit_average, accInit_num_classes, accInit_num_total, ← hL]
  have key : accMerge (accFeed (accInit avg n) p0)
      (rest.map (fun bs => accFeed (accInit avg n) bs)) =
      accFeed (accInit avg n) whole := by
    apply accuracy_ext
    · rw [(accMerge_config _ _).1, (accFeed_config _ _).1, (accFeed_config _ _).1]
    · rw [(accMerge_config _ _).2, (accFeed_config _ _).2, (accFeed_config _ _).2]
    · rw [accMerge_num_correct, feed_nc p0, feed_nc whole]
      have hmm : (rest.map (fun bs => accFeed (accInit avg n) bs)).map Accuracy.num_correct =
          rest.map (fun bs => (bs.map (accBatchCorrect avg n)).foldl addL
            (List.replicate L 0)) := by
        rw [List.map_map]
        apply List.map_congr_left
        intro bs _
        exact feed_nc bs
      rw [hmm]
      exact count_chain (accBatchCorrect avg n)
        (fun b => (accBatchCorrect_length avg n b).trans hL.symm)
    · rw [accMerge_num_total, feed_nt p0, feed_nt whole]
      have hmm : (rest.map (fun bs => accFeed (accInit avg n) bs)).map Accuracy.num_total =
          rest.map (fun bs => (bs.map (accBatchTotal avg n)).foldl addL
            (List.replicate L 0)) := by
        rw [List.map_map]
        apply List.map_congr_left
        intro bs _
        exact feed_nt bs
      rw [hmm]
      exact count_chain (accBatchTotal avg n)
        (fun b => (accBatchTotal_length avg n b).trans hL.symm)
  rw [key]

/-- C2 witness: two micro instances, batches `([0],[0])` and `([1],[1])`
split across them, against one instance fed both batches in the swapped
order. -/
theorem accuracy_merge_compute_eq_single_stream_witness :
    accCompute (accMerge (accFeed (accInit (some "micro") 0) [([0], [0])])
        ([[([1], [1])]].map (fun bs => accFeed (accInit (some "micro") 0) bs))) =
      accCompute (accFeed (accInit (some "micro") 0) [([1], [1]), ([0], [0])]) :=
  accuracy_merge_compute_eq_single_stream (some "micro") 0 [([0], [0])] [[([1], [1])]]
    [([1], [1]), ([0], [0])] (by decide)
